import Mathlib

/-!
Shallow embedding of the task-management service of a single-entity todo
application (source: app/models.py and app/task_service.py).

The storage gateway (app/database.py, an external collaborator per the spec)
is modelled as a value of type `Store` threaded through every operation:
each Python service call opens a scoped session, performs one query or
mutation, commits and returns; here that becomes a pure function from the
store to a result paired with the next store.  The storage engine's
behaviours used by the service — primary-key lookup, autoincrement id
assignment on insert, and an order-by query — are embedded explicitly.
Timestamps are modelled as natural numbers read from an always-advancing
clock carried in the store.
-/

namespace Todo

/-- Persistent entity `Task` from app/models.py: optional integer primary
key (absent before the row is inserted), a title, a completion flag
defaulting to false, and a creation timestamp set at creation. -/
structure Task where
  id : Option Nat
  title : String
  completed : Bool
  created_at : Nat
deriving Repr, DecidableEq

/-- Partial-update schema `TaskUpdate` from app/models.py: both fields
optional, defaulting to the `None` sentinel meaning "not provided". -/
structure TaskUpdate where
  title : Option String := none
  completed : Option Bool := none
deriving Repr, DecidableEq

/-- The persistent store behind the storage gateway: the list of task rows
in insertion order, the next autoincrement primary key, and the current
clock reading used for `created_at` (the clock advances with every
insertion, as real time does). -/
structure Store where
  tasks : List Task
  nextId : Nat
  now : Nat
deriving Repr, DecidableEq

/-- A freshly reset store: no rows, autoincrement starting at 1. -/
def emptyStore : Store := ⟨[], 1, 0⟩

/-- Primary-key match used by `session.get(Task, task_id)`. -/
def idMatches (i : Nat) (t : Task) : Bool := t.id == some i

/-- Mutate (in place) the single row found by primary key `i`, as the
session does to the object returned by `session.get`. -/
def replaceFirstById (i : Nat) (f : Task → Task) : List Task → List Task
  | [] => []
  | h :: rest => if idMatches i h then f h :: rest else h :: replaceFirstById i f rest

/-- Delete the single row found by primary key `i` (`session.delete`). -/
def removeFirstById (i : Nat) : List Task → List Task
  | [] => []
  | h :: rest => if idMatches i h then rest else h :: removeFirstById i rest

/-- `TaskService.create_task`: build a `Task` from the given title with the
other fields at their defaults (`completed := false`, `created_at` the
creation instant), insert it (the engine assigns the next id), commit, and
return the refreshed record. -/
def create_task (title : String) (s : Store) : Task × Store :=
  let t : Task := { id := some s.nextId, title := title, completed := false,
                    created_at := s.now }
  (t, { tasks := s.tasks ++ [t], nextId := s.nextId + 1, now := s.now + 1 })

/-- Insert a task into a list kept in descending `created_at` order
(one step of the engine's order-by computation). -/
def insertByCreatedDesc (t : Task) : List Task → List Task
  | [] => [t]
  | h :: rest =>
      if t.created_at > h.created_at then t :: h :: rest
      else h :: insertByCreatedDesc t rest

/-- The engine's `ORDER BY created_at DESC` query over all rows. -/
def sortByCreatedDesc : List Task → List Task
  | [] => []
  | h :: rest => insertByCreatedDesc h (sortByCreatedDesc rest)

/-- `TaskService.get_all_tasks`: all tasks ordered by creation date,
newest first. -/
def get_all_tasks (s : Store) : List Task :=
  sortByCreatedDesc s.tasks

/-- `TaskService.get_task_by_id`: primary-key lookup, `none` when no row
has that id. -/
def get_task_by_id (i : Nat) (s : Store) : Option Task :=
  s.tasks.find? (idMatches i)

/-- The field merge inside `TaskService.update_task`: overwrite exactly the
fields of the patch that are not the `None` sentinel. -/
def applyUpdate (u : TaskUpdate) (t : Task) : Task :=
  { t with
    title := match u.title with
      | some v => v
      | none => t.title,
    completed := match u.completed with
      | some b => b
      | none => t.completed }

/-- `TaskService.update_task`: fetch by id; on miss return `none` without
touching the store; on hit merge the provided patch fields into the row,
commit, and return the refreshed record. -/
def update_task (i : Nat) (u : TaskUpdate) (s : Store) : Option Task × Store :=
  match s.tasks.find? (idMatches i) with
  | none => (none, s)
  | some t =>
      (some (applyUpdate u t),
       { s with tasks := replaceFirstById i (applyUpdate u) s.tasks })

/-- The in-place flip inside `TaskService.toggle_task_completion`. -/
def toggleCompleted (t : Task) : Task :=
  { t with completed := !t.completed }

/-- `TaskService.toggle_task_completion`: fetch by id; on miss return
`none` without touching the store; on hit flip `completed`, commit, and
return the refreshed record. -/
def toggle_task_completion (i : Nat) (s : Store) : Option Task × Store :=
  match s.tasks.find? (idMatches i) with
  | none => (none, s)
  | some t =>
      (some (toggleCompleted t),
       { s with tasks := replaceFirstById i toggleCompleted s.tasks })

/-- `TaskService.delete_task`: fetch by id; on miss return `false` without
touching the store; on hit delete the row, commit, and return `true`. -/
def delete_task (i : Nat) (s : Store) : Bool × Store :=
  match s.tasks.find? (idMatches i) with
  | none => (false, s)
  | some _ => (true, { s with tasks := removeFirstById i s.tasks })

/-- Result shape of `TaskService.get_task_statistics`. -/
structure TaskStats where
  total : Nat
  completed : Nat
  pending : Nat
deriving Repr, DecidableEq

/-- `TaskService.get_task_statistics`: total count, count of completed
rows, and their difference. -/
def get_task_statistics (s : Store) : TaskStats :=
  let total := s.tasks.length
  let completed := s.tasks.countP (fun t => t.completed)
  { total := total, completed := completed, pending := total - completed }

/-- Create a batch of tasks in sequence (as a caller or test does). -/
def createMany (titles : List String) (s : Store) : Store :=
  titles.foldl (fun st ti => (create_task ti st).2) s

/-- Primary-key discipline the storage engine maintains: every stored row
has an assigned id below the autoincrement counter. -/
def Store.idsAssigned (s : Store) : Bool :=
  s.tasks.all fun t =>
    match t.id with
    | some n => decide (n < s.nextId)
    | none => false

/-- Store well-formedness guaranteed by the engine: ids are assigned,
bounded by the autoincrement counter, and unique (primary key). -/
def Store.WF (s : Store) : Prop :=
  s.idsAssigned = true ∧ (s.tasks.map Task.id).Nodup

/-- A concrete two-row store used to instantiate theorems. -/
def sampleStore : Store :=
  ⟨[⟨some 1, "alpha", false, 0⟩, ⟨some 2, "beta", true, 1⟩], 3, 2⟩

/-- Clock discipline the embedding maintains: rows were created at strictly
increasing instants, all before the current clock reading. -/
def ClockInv (s : Store) : Prop :=
  s.tasks.Pairwise (fun a b => a.created_at < b.created_at) ∧
  ∀ t ∈ s.tasks, t.created_at < s.now

theorem idMatches_eq_true (i : Nat) (t : Task) :
    idMatches i t = true ↔ t.id = some i := by
  simp [idMatches]

theorem applyUpdate_preserves_id (u : TaskUpdate) (t : Task) :
    (applyUpdate u t).id = t.id := rfl

theorem applyUpdate_preserves_created_at (u : TaskUpdate) (t : Task) :
    (applyUpdate u t).created_at = t.created_at := rfl

theorem toggleCompleted_preserves_id (t : Task) :
    (toggleCompleted t).id = t.id := rfl

theorem toggleCompleted_involutive (t : Task) :
    toggleCompleted (toggleCompleted t) = t := by
  cases t
  simp [toggleCompleted]

theorem idMatches_of_preserves_id (i : Nat) (f : Task → Task)
    (hf : ∀ t, (f t).id = t.id) (t : Task) :
    idMatches i (f t) = idMatches i t := by
  simp [idMatches, hf]

theorem find?_replaceFirstById (i : Nat) (f : Task → Task)
    (hf : ∀ t, (f t).id = t.id) (l : List Task) :
    (replaceFirstById i f l).find? (idMatches i) =
      (l.find? (idMatches i)).map f := by
  induction l with
  | nil => rfl
  | cons h rest ih =>
      by_cases hm : idMatches i h = true
      · rw [replaceFirstById, if_pos hm,
          List.find?_cons_of_pos _ ((idMatches_of_preserves_id i f hf h).trans hm),
          List.find?_cons_of_pos _ hm]
        rfl
      · rw [replaceFirstById, if_neg hm, List.find?_cons_of_neg _ hm,
          List.find?_cons_of_neg _ hm, ih]

theorem replaceFirstById_comp (i : Nat) (f g : Task → Task)
    (hf : ∀ t, (f t).id = t.id) (l : List Task) :
    replaceFirstById i g (replaceFirstById i f l) =
      replaceFirstById i (fun t => g (f t)) l := by
  induction l with
  | nil => rfl
  | cons h rest ih =>
      by_cases hm : idMatches i h = true
      · rw [replaceFirstById, if_pos hm, replaceFirstById,
          if_pos ((idMatches_of_preserves_id i f hf h).trans hm),
          replaceFirstById, if_pos hm]
      · rw [replaceFirstById, if_neg hm, replaceFirstById, if_neg hm,
          replaceFirstById, if_neg hm, ih]

theorem replaceFirstById_eq_self (i : Nat) (f : Task → Task)
    (hf : ∀ t, f t = t) (l : List Task) :
    replaceFirstById i f l = l := by
  induction l with
  | nil => rfl
  | cons h rest ih =>
      by_cases hm : idMatches i h = true
      · rw [replaceFirstById, if_pos hm, hf]
      · rw [replaceFirstById, if_neg hm, ih]

theorem replaceFirstById_congr (i : Nat) (f g : Task → Task) (l : List Task)
    (t : Task) (hfind : l.find? (idMatches i) = some t) (hfg : f t = g t) :
    replaceFirstById i f l = replaceFirstById i g l := by
  induction l with
  | nil => cases hfind
  | cons h rest ih =>
      by_cases hm : idMatches i h = true
      · rw [List.find?_cons_of_pos _ hm, Option.some_inj] at hfind
        rw [replaceFirstById, if_pos hm, replaceFirstById, if_pos hm,
          hfind, hfg]
      · rw [List.find?_cons_of_neg _ hm] at hfind
        rw [replaceFirstById, if_neg hm, replaceFirstById, if_neg hm,
          ih hfind]

theorem find?_removeFirstById (i : Nat) (l : List Task)
    (hnd : (l.map Task.id).Nodup) :
    (removeFirstById i l).find? (idMatches i) = none := by
  induction l with
  | nil => rfl
  | cons h rest ih =>
      rw [List.map_cons, List.nodup_cons] at hnd
      obtain ⟨hnotin, hnd'⟩ := hnd
      by_cases hm : idMatches i h = true
      · rw [removeFirstById, if_pos hm]
        rw [List.find?_eq_none]
        intro x hx hpx
        exact hnotin (((idMatches_eq_true i h).mp hm ▸
          (idMatches_eq_true i x).mp hpx) ▸ List.mem_map_of_mem Task.id hx)
      · rw [removeFirstById, if_neg hm, List.find?_cons_of_neg _ hm, ih hnd']

theorem map_idCreated_replaceFirstById (i : Nat) (f : Task → Task)
    (hf : ∀ t, (f t).id = t.id ∧ (f t).created_at = t.created_at)
    (l : List Task) :
    (replaceFirstById i f l).map (fun t => (t.id, t.created_at)) =
      l.map (fun t => (t.id, t.created_at)) := by
  induction l with
  | nil => rfl
  | cons h rest ih =>
      by_cases hm : idMatches i h = true
      · rw [replaceFirstById, if_pos hm, List.map_cons, List.map_cons,
          (hf h).1, (hf h).2]
      · rw [replaceFirstById, if_neg hm, List.map_cons, List.map_cons, ih]

theorem insertByCreatedDesc_of_le (t : Task) (l : List Task)
    (h : ∀ x ∈ l, t.created_at ≤ x.created_at) :
    insertByCreatedDesc t l = l ++ [t] := by
  induction l with
  | nil => rfl
  | cons a rest ih =>
      rw [insertByCreatedDesc, if_neg (not_lt.mpr (h a (List.mem_cons_self a rest))),
        ih (fun x hx => h x (List.mem_cons_of_mem a hx))]
      rfl

theorem sortByCreatedDesc_of_ascending (l : List Task)
    (h : l.Pairwise (fun a b => a.created_at < b.created_at)) :
    sortByCreatedDesc l = l.reverse := by
  induction l with
  | nil => rfl
  | cons a rest ih =>
      rw [List.pairwise_cons] at h
      rw [sortByCreatedDesc, ih h.2,
        insertByCreatedDesc_of_le a rest.reverse
          (fun x hx => le_of_lt (h.1 x (List.mem_reverse.mp hx))),
        List.reverse_cons]

theorem createMany_cons (ti : String) (rest : List String) (s : Store) :
    createMany (ti :: rest) s = createMany rest (create_task ti s).2 := rfl

theorem createMany_tasks_map_title (ts : List String) (s : Store) :
    (createMany ts s).tasks.map Task.title = s.tasks.map Task.title ++ ts := by
  induction ts generalizing s with
  | nil => simp [createMany]
  | cons ti rest ih =>
      rw [createMany_cons, ih]
      simp [create_task]

theorem clockInv_create (ti : String) (s : Store) (h : ClockInv s) :
    ClockInv (create_task ti s).2 := by
  obtain ⟨hp, hlt⟩ := h
  constructor
  · rw [create_task, List.pairwise_append]
    refine ⟨hp, List.pairwise_singleton _ _, ?_⟩
    intro a ha b hb
    rw [List.mem_singleton] at hb
    rw [hb]
    exact hlt a ha
  · intro t ht
    rw [create_task, List.mem_append, List.mem_singleton] at ht
    rcases ht with hmem | hnew
    · exact Nat.lt_succ_of_lt (hlt t hmem)
    · rw [hnew]
      exact Nat.lt_succ_self _

theorem clockInv_createMany (ts : List String) (s : Store) (h : ClockInv s) :
    ClockInv (createMany ts s) := by
  induction ts generalizing s with
  | nil => exact h
  | cons ti rest ih =>
      rw [createMany_cons]
      exact ih _ (clockInv_create ti s h)

theorem clockInv_emptyStore : ClockInv emptyStore := by
  constructor
  · exact List.Pairwise.nil
  · intro t ht
    cases ht

theorem update_task_found (i : Nat) (u : TaskUpdate) (s : Store) (t : Task)
    (h : s.tasks.find? (idMatches i) = some t) :
    update_task i u s =
      (some (applyUpdate u t),
       { s with tasks := replaceFirstById i (applyUpdate u) s.tasks }) := by
  simp [update_task, h]

theorem get_task_by_id_after_update (i : Nat) (u : TaskUpdate) (s : Store)
    (t : Task) (h : s.tasks.find? (idMatches i) = some t) :
    get_task_by_id i (update_task i u s).2 = some (applyUpdate u t) := by
  rw [update_task_found i u s t h, get_task_by_id]
  have h2 : ({ s with tasks := replaceFirstById i (applyUpdate u) s.tasks } : Store).tasks
      = replaceFirstById i (applyUpdate u) s.tasks := rfl
  rw [h2, find?_replaceFirstById i (applyUpdate u)
    (fun x => applyUpdate_preserves_id u x) s.tasks, h]
  rfl

theorem toggle_found (i : Nat) (s : Store) (t : Task)
    (h : s.tasks.find? (idMatches i) = some t) :
    toggle_task_completion i s =
      (some (toggleCompleted t),
       { s with tasks := replaceFirstById i toggleCompleted s.tasks }) := by
  simp [toggle_task_completion, h]

theorem removeFirstById_sublist (i : Nat) (l : List Task) :
    (removeFirstById i l).Sublist l := by
  induction l with
  | nil => exact List.Sublist.refl _
  | cons h rest ih =>
      by_cases hm : idMatches i h = true
      · rw [removeFirstById, if_pos hm]
        exact List.sublist_cons_self h rest
      · rw [removeFirstById, if_neg hm]
        exact List.Sublist.cons₂ h ih

/-- Claim C2: for every store state, `statistics()` returns total equal to
the number of stored records, completed equal to the number of records whose
flag is true, and pending equal to total minus completed; hence
total = completed + pending always holds, and on an empty store all three
counts are 0. -/
theorem statistics_counts_correct (s : Store) :
    (get_task_statistics s).total = s.tasks.length ∧
    (get_task_statistics s).completed =
      (s.tasks.filter (fun t => t.completed)).length ∧
    (get_task_statistics s).pending =
      (get_task_statistics s).total - (get_task_statistics s).completed ∧
    (get_task_statistics s).total =
      (get_task_statistics s).completed + (get_task_statistics s).pending ∧
    get_task_statistics emptyStore = ⟨0, 0, 0⟩ := by
  refine ⟨rfl, List.countP_eq_length_filter _ _, rfl, ?_, rfl⟩
  exact (Nat.add_sub_cancel' (List.countP_le_length _)).symm

/-- Claim C6: `toggleCompletion(id)` is equivalent to `update(id, patch)`
where the patch provides only `completed` set to the negation of the task's
current value: same returned result and same resulting store state,
including the not-found case. -/
theorem toggle_refines_update (i : Nat) (s : Store) :
    toggle_task_completion i s =
      match get_task_by_id i s with
      | none => (none, s)
      | some t =>
          update_task i { title := none, completed := some (!t.completed) } s := by
  rw [get_task_by_id]
  cases hfind : s.tasks.find? (idMatches i) with
  | none => simp [toggle_task_completion, hfind]
  | some t =>
      have hfg : toggleCompleted t
          = applyUpdate ⟨none, some (!t.completed)⟩ t := rfl
      rw [toggle_found i s t hfind]
      show _ = update_task i ⟨none, some (!t.completed)⟩ s
      rw [update_task_found i ⟨none, some (!t.completed)⟩ s t hfind,
        Prod.mk.injEq]
      exact ⟨congrArg some hfg,
        congrArg (fun l => ({ s with tasks := l } : Store))
          (replaceFirstById_congr i toggleCompleted
            (applyUpdate ⟨none, some (!t.completed)⟩) s.tasks t hfind hfg)⟩

/-- Claim C8: a task's `created_at` is set once at creation and its id is
stable: `update_task` (with any patch) and `toggle_task_completion` leave
the (id, created_at) column of the store unchanged, `create_task` only
appends a fresh row, and `delete_task` only removes rows, never rewriting
the (id, created_at) of a surviving row. -/
theorem id_created_at_immutable (i : Nat) (u : TaskUpdate) (ti : String)
    (s : Store) :
    (update_task i u s).2.tasks.map (fun t => (t.id, t.created_at)) =
      s.tasks.map (fun t => (t.id, t.created_at)) ∧
    (toggle_task_completion i s).2.tasks.map (fun t => (t.id, t.created_at)) =
      s.tasks.map (fun t => (t.id, t.created_at)) ∧
    (create_task ti s).2.tasks.map (fun t => (t.id, t.created_at)) =
      s.tasks.map (fun t => (t.id, t.created_at)) ++ [(some s.nextId, s.now)] ∧
    ((delete_task i s).2.tasks.map (fun t => (t.id, t.created_at))).Sublist
      (s.tasks.map (fun t => (t.id, t.created_at))) := by
  refine ⟨?_, ?_, ?_, ?_⟩
  · cases hfind : s.tasks.find? (idMatches i) with
    | none => simp [update_task, hfind]
    | some t =>
        rw [update_task_found i u s t hfind]
        exact map_idCreated_replaceFirstById i (applyUpdate u)
          (fun x => ⟨rfl, rfl⟩) s.tasks
  · cases hfind : s.tasks.find? (idMatches i) with
    | none => simp [toggle_task_completion, hfind]
    | some t =>
        rw [toggle_found i s t hfind]
        exact map_idCreated_replaceFirstById i toggleCompleted
          (fun x => ⟨rfl, rfl⟩) s.tasks
  · simp [create_task]
  · cases hfind : s.tasks.find? (idMatches i) with
    | none =>
        simp only [delete_task, hfind]
        exact List.Sublist.refl _
    | some t =>
        simp only [delete_task, hfind]
        exact (removeFirstById_sublist i s.tasks).map _

/-- Claim C9: when `update_task`, `toggle_task_completion`, or `delete_task`
is called with an id that matches no stored record, the not-found branch
performs no write: the store is returned completely unchanged. -/
theorem notfound_branch_leaves_store_unchanged (i : Nat) (u : TaskUpdate)
    (s : Store) (h : get_task_by_id i s = none) :
    update_task i u s = (none, s) ∧
    toggle_task_completion i s = (none, s) ∧
    delete_task i s = (false, s) := by
  rw [get_task_by_id] at h
  exact ⟨by simp [update_task, h], by simp [toggle_task_completion, h],
    by simp [delete_task, h]⟩

/-- Witness for C9 at a concrete store and absent id. -/
theorem notfound_branch_leaves_store_unchanged_witness :
    get_task_by_id 99 sampleStore = none ∧
    (update_task 99 ⟨none, none⟩ sampleStore = (none, sampleStore) ∧
     toggle_task_completion 99 sampleStore = (none, sampleStore) ∧
     delete_task 99 sampleStore = (false, sampleStore)) :=
  ⟨by decide,
   notfound_branch_leaves_store_unchanged 99 ⟨none, none⟩ sampleStore (by decide)⟩

/-- The first row of `sampleStore`, used to instantiate theorems. -/
def task1 : Task := ⟨some 1, "alpha", false, 0⟩

/-- Claim C1: for every stored task and every patch, `update` leaves any
field unset in the patch at its previous stored value and overwrites any
field explicitly provided (including the empty string for title and false
for completed); with both fields unset, the returned and the stored record
equal the record before the call and the store is unchanged. -/
theorem update_merges_only_provided_fields (i : Nat) (u : TaskUpdate)
    (s : Store) (t : Task) (h : get_task_by_id i s = some t) :
    (∀ v, u.title = some v →
      (update_task i u s).1.map Task.title = some v ∧
      (get_task_by_id i (update_task i u s).2).map Task.title = some v) ∧
    (u.title = none →
      (update_task i u s).1.map Task.title = some t.title ∧
      (get_task_by_id i (update_task i u s).2).map Task.title = some t.title) ∧
    (∀ b, u.completed = some b →
      (update_task i u s).1.map Task.completed = some b ∧
      (get_task_by_id i (update_task i u s).2).map Task.completed = some b) ∧
    (u.completed = none →
      (update_task i u s).1.map Task.completed = some t.completed ∧
      (get_task_by_id i (update_task i u s).2).map Task.completed
        = some t.completed) ∧
    (u.title = none → u.completed = none →
      update_task i u s = (some t, s)) := by
  rw [get_task_by_id] at h
  have hupd := update_task_found i u s t h
  have hstored := get_task_by_id_after_update i u s t h
  refine ⟨?_, ?_, ?_, ?_, ?_⟩
  · intro v hv
    rw [hstored, hupd]
    exact ⟨by simp [applyUpdate, hv], by simp [applyUpdate, hv]⟩
  · intro hv
    rw [hstored, hupd]
    exact ⟨by simp [applyUpdate, hv], by simp [applyUpdate, hv]⟩
  · intro b hb
    rw [hstored, hupd]
    exact ⟨by simp [applyUpdate, hb], by simp [applyUpdate, hb]⟩
  · intro hb
    rw [hstored, hupd]
    exact ⟨by simp [applyUpdate, hb], by simp [applyUpdate, hb]⟩
  · intro ht hc
    have hid : ∀ x, applyUpdate u x = x := by
      intro x
      cases x
      simp [applyUpdate, ht, hc]
    rw [hupd, hid t, replaceFirstById_eq_self i (applyUpdate u) hid s.tasks]

/-- Witness for C1: an empty patch at a concrete store is a no-op. -/
theorem update_merges_only_provided_fields_witness :
    get_task_by_id 1 sampleStore = some task1 ∧
    update_task 1 ⟨none, none⟩ sampleStore = (some task1, sampleStore) :=
  ⟨by decide,
   (update_merges_only_provided_fields 1 ⟨none, none⟩ sampleStore task1
     (by decide)).2.2.2.2 rfl rfl⟩

/-- Claim C10: in `update_task`, a patch field explicitly set to the `None`
sentinel behaves identically to omitting it (it is the same `TaskUpdate`
value, and the stored title is left unchanged — so no input to update can
set a field to `None`), while `title := some ""` sets the stored title to
the empty string. -/
theorem update_none_sentinel_vs_empty_title (i : Nat) (s : Store) (t : Task)
    (h : get_task_by_id i s = some t) :
    ∀ c : Option Bool,
      update_task i { completed := c } s = update_task i ⟨none, c⟩ s ∧
      ((update_task i ⟨none, c⟩ s).1.map Task.title = some t.title ∧
       (get_task_by_id i (update_task i ⟨none, c⟩ s).2).map Task.title
         = some t.title) ∧
      ((update_task i ⟨some "", c⟩ s).1.map Task.title = some "" ∧
       (get_task_by_id i (update_task i ⟨some "", c⟩ s).2).map Task.title
         = some "") := by
  rw [get_task_by_id] at h
  intro c
  refine ⟨rfl, ?_, ?_⟩
  · rw [get_task_by_id_after_update i ⟨none, c⟩ s t h,
      update_task_found i ⟨none, c⟩ s t h]
    exact ⟨by simp [applyUpdate], by simp [applyUpdate]⟩
  · rw [get_task_by_id_after_update i ⟨some "", c⟩ s t h,
      update_task_found i ⟨some "", c⟩ s t h]
    exact ⟨by simp [applyUpdate], by simp [applyUpdate]⟩

/-- Witness for C10 at a concrete store: a `None` title leaves the stored
title, an empty-string title overwrites it. -/
theorem update_none_sentinel_vs_empty_title_witness :
    get_task_by_id 1 sampleStore = some task1 ∧
    ((update_task 1 ⟨none, none⟩ sampleStore).1.map Task.title
       = some task1.title ∧
     (get_task_by_id 1 (update_task 1 ⟨none, none⟩ sampleStore).2).map
       Task.title = some task1.title) ∧
    ((update_task 1 ⟨some "", none⟩ sampleStore).1.map Task.title = some "" ∧
     (get_task_by_id 1 (update_task 1 ⟨some "", none⟩ sampleStore).2).map
       Task.title = some "") :=
  ⟨by decide,
   ((update_none_sentinel_vs_empty_title 1 sampleStore task1
      (by decide)) none).2.1,
   ((update_none_sentinel_vs_empty_title 1 sampleStore task1
      (by decide)) none).2.2⟩

/-- Claim C5: `toggleCompletion` is its own inverse: for an existing task
id, applying it twice returns the task (and in particular its completed
flag) to its original value, and restores the store exactly. -/
theorem toggle_twice_restores (i : Nat) (s : Store) (t : Task)
    (h : get_task_by_id i s = some t) :
    (toggle_task_completion i (toggle_task_completion i s).2).1 = some t ∧
    (toggle_task_completion i (toggle_task_completion i s).2).2 = s ∧
    get_task_by_id i (toggle_task_completion i (toggle_task_completion i s).2).2
      = some t := by
  rw [get_task_by_id] at h
  have h1 := toggle_found i s t h
  have hfind1 : (toggle_task_completion i s).2.tasks.find? (idMatches i)
      = some (toggleCompleted t) := by
    rw [h1]
    show (replaceFirstById i toggleCompleted s.tasks).find? (idMatches i) = _
    rw [find?_replaceFirstById i toggleCompleted
      (fun x => toggleCompleted_preserves_id x) s.tasks, h]
    rfl
  have h2 := toggle_found i (toggle_task_completion i s).2
    (toggleCompleted t) hfind1
  have htasks : replaceFirstById i toggleCompleted
      (toggle_task_completion i s).2.tasks = s.tasks := by
    rw [h1]
    show replaceFirstById i toggleCompleted
      (replaceFirstById i toggleCompleted s.tasks) = s.tasks
    rw [replaceFirstById_comp i toggleCompleted toggleCompleted
      (fun x => toggleCompleted_preserves_id x) s.tasks]
    exact replaceFirstById_eq_self i _
      (fun x => toggleCompleted_involutive x) s.tasks
  have hstore : (toggle_task_completion i (toggle_task_completion i s).2).2
      = s := by
    rw [h2]
    show ({ (toggle_task_completion i s).2 with
      tasks := replaceFirstById i toggleCompleted
        (toggle_task_completion i s).2.tasks } : Store) = s
    rw [htasks, h1]
  refine ⟨?_, hstore, ?_⟩
  · rw [h2]
    show some (toggleCompleted (toggleCompleted t)) = some t
    rw [toggleCompleted_involutive t]
  · rw [hstore, get_task_by_id, h]

/-- Witness for C5 at a concrete store and task. -/
theorem toggle_twice_restores_witness :
    get_task_by_id 1 sampleStore = some task1 ∧
    ((toggle_task_completion 1 (toggle_task_completion 1 sampleStore).2).1
       = some task1 ∧
     (toggle_task_completion 1 (toggle_task_completion 1 sampleStore).2).2
       = sampleStore ∧
     get_task_by_id 1
       (toggle_task_completion 1 (toggle_task_completion 1 sampleStore).2).2
       = some task1) :=
  ⟨by decide, toggle_twice_restores 1 sampleStore task1 (by decide)⟩

/-- Claim C7: `delete_task` on a present id returns true and removes the
record, so a subsequent `get_task_by_id` returns the not-found result; on
an absent id, delete returns false while getById, update, and toggle return
the not-found result — all as normal values of total functions, never as an
exception. -/
theorem delete_present_and_absent_semantics (i : Nat) (s : Store)
    (hnd : (s.tasks.map Task.id).Nodup) :
    (∀ t, get_task_by_id i s = some t →
       (delete_task i s).1 = true ∧
       get_task_by_id i (delete_task i s).2 = none) ∧
    (get_task_by_id i s = none →
       delete_task i s = (false, s) ∧
       (∀ u, update_task i u s = (none, s)) ∧
       toggle_task_completion i s = (none, s)) := by
  constructor
  · intro t h
    rw [get_task_by_id] at h
    refine ⟨by simp [delete_task, h], ?_⟩
    have h2 : (delete_task i s).2.tasks = removeFirstById i s.tasks := by
      simp [delete_task, h]
    rw [get_task_by_id, h2]
    exact find?_removeFirstById i s.tasks hnd
  · intro h
    rw [get_task_by_id] at h
    exact ⟨by simp [delete_task, h], fun u => by simp [update_task, h],
      by simp [toggle_task_completion, h]⟩

/-- Witness for C7: deleting a present row of a concrete store. -/
theorem delete_present_and_absent_semantics_witness :
    (sampleStore.tasks.map Task.id).Nodup ∧
    ((delete_task 1 sampleStore).1 = true ∧
     get_task_by_id 1 (delete_task 1 sampleStore).2 = none) :=
  ⟨by decide,
   (delete_present_and_absent_semantics 1 sampleStore (by decide)).1 task1
     (by decide)⟩

/-- Claim C4: for every title (including the empty string, accepted without
validation failure), `create_task` followed by `get_task_by_id` of the
returned id yields a record with exactly that title, `completed = false`,
a non-null id, and a creation timestamp set to the creation instant. -/
theorem create_then_get_roundtrip (title : String) (s : Store)
    (hwf : s.WF) :
    (create_task title s).1.title = title ∧
    (create_task title s).1.completed = false ∧
    (create_task title s).1.id = some s.nextId ∧
    (create_task title s).1.id ≠ none ∧
    (create_task title s).1.created_at = s.now ∧
    get_task_by_id s.nextId (create_task title s).2
      = some (create_task title s).1 := by
  refine ⟨rfl, rfl, rfl, by simp [create_task], rfl, ?_⟩
  have h2 : (create_task title s).2.tasks
      = s.tasks ++ [(create_task title s).1] := rfl
  rw [get_task_by_id, h2, List.find?_append]
  have hnone : s.tasks.find? (idMatches s.nextId) = none := by
    rw [List.find?_eq_none]
    intro x hx hpx
    have hall := hwf.1
    rw [Store.idsAssigned, List.all_eq_true] at hall
    have hbound := hall x hx
    have hxid : x.id = some s.nextId := (idMatches_eq_true _ x).mp hpx
    rw [hxid] at hbound
    exact absurd (of_decide_eq_true hbound) (lt_irrefl s.nextId)
  rw [hnone, Option.none_or,
    List.find?_cons_of_pos _ (by simp [idMatches, create_task])]

/-- Witness for C4: creating a task in the empty store and reading it back. -/
theorem create_then_get_roundtrip_witness :
    emptyStore.WF ∧
    get_task_by_id emptyStore.nextId (create_task "solo" emptyStore).2
      = some (create_task "solo" emptyStore).1 :=
  ⟨by constructor <;> decide,
   (create_then_get_roundtrip "solo" emptyStore
     ⟨by decide, by decide⟩).2.2.2.2.2⟩

/-- Claim C3: `get_all_tasks` on the empty store is the empty sequence;
after creating N tasks in sequence, it returns exactly those N records
ordered by `created_at` descending, most recently created first; creating
"First", "Second", "Third" in order lists the titles
["Third", "Second", "First"]. -/
theorem list_orders_newest_first :
    get_all_tasks emptyStore = [] ∧
    (∀ titles : List String,
       get_all_tasks (createMany titles emptyStore)
         = (createMany titles emptyStore).tasks.reverse ∧
       (get_all_tasks (createMany titles emptyStore)).map Task.title
         = titles.reverse ∧
       (get_all_tasks (createMany titles emptyStore)).length
         = titles.length) ∧
    (get_all_tasks (createMany ["First", "Second", "Third"] emptyStore)).map
      Task.title = ["Third", "Second", "First"] := by
  have key : ∀ titles : List String,
      get_all_tasks (createMany titles emptyStore)
        = (createMany titles emptyStore).tasks.reverse := by
    intro titles
    rw [get_all_tasks]
    exact sortByCreatedDesc_of_ascending _
      (clockInv_createMany titles emptyStore clockInv_emptyStore).1
  refine ⟨rfl, fun titles => ⟨key titles, ?_, ?_⟩, by decide⟩
  · rw [key titles, List.map_reverse, createMany_tasks_map_title]
    simp [emptyStore]
  · have hlen := congrArg List.length
      (createMany_tasks_map_title titles emptyStore)
    rw [List.length_map, List.length_append, List.length_map] at hlen
    rw [key titles, List.length_reverse, hlen]
    simp [emptyStore]

end Todo
